import Mathlib

/-!
Verification of the FeedbackOS contact directory service against its
natural-language specification.  The definitions below are a shallow
embedding of the logic-bearing subsystems of the source:

* `src/seed_database.py` — the record normalization and deduplication
  pipeline (`ContactCreate`, the row loop of `seed_database`, the
  chunked batch insert);
* `src/main.py` — the filter-and-paginate query compiler
  (`search_global_contacts`) and the workspace-link endpoint
  (`save_contact_to_workspace`).
-/

namespace FeedbackOS

/-- Python's whitespace test used by `str.strip()` (restricted to the
whitespace characters that occur in spreadsheet cells). -/
def isSpaceChar (c : Char) : Bool :=
  c == ' ' || c == '\t' || c == '\n' || c == '\r'

/-- Python `str.strip()`: remove leading and trailing whitespace. -/
def pyStrip (s : String) : String :=
  ⟨((s.data.dropWhile isSpaceChar).reverse.dropWhile isSpaceChar).reverse⟩

/-- Python `str.lower()`. -/
def pyLower (s : String) : String :=
  ⟨s.data.map Char.toLower⟩

/-- Python `c in s` for a single character. -/
def pyContainsChar (s : String) (c : Char) : Bool :=
  s.data.contains c

/-- A spreadsheet cell as seen by `seed_database`: either the pandas
missing/NaN sentinel (a value for which `pd.notna` is false) or a scalar
already coerced to a string (`str(v)`). -/
inductive Cell where
  | na
  | str (s : String)
deriving DecidableEq, Repr

/-- One raw row: header text mapped to a cell (`row.to_dict()`). -/
abbrev RawRow := List (String × Cell)

/-- `seed_database` lines 56–64: headers are trimmed
(`df.columns.astype(str).str.strip()`) and the row is cleaned to
`{k: str(v).strip() for k, v in row.to_dict().items() if pd.notna(v) and str(v).strip() != ""}`. -/
def cleanRow (row : RawRow) : List (String × String) :=
  row.filterMap fun kv =>
    match kv.2 with
    | Cell.na => none
    | Cell.str s => if pyStrip s = "" then none else some (pyStrip kv.1, pyStrip s)

/-- Pydantic `AliasChoices` semantics: the first alias present in the cleaned
row wins; `none` when no alias is present. -/
def lookupFirst (clean : List (String × String)) : List String → Option String
  | [] => none
  | a :: rest =>
    match clean.lookup a with
    | some v => some v
    | none => lookupFirst clean rest

/-- `AliasChoices('Email', 'email', 'work_email')` of `ContactCreate.email`. -/
def emailAliases : List String := ["Email", "email", "work_email"]

/-- `AliasChoices('First name', 'first_name')`. -/
def firstNameAliases : List String := ["First name", "first_name"]

/-- `AliasChoices('Last name', 'last_name')`. -/
def lastNameAliases : List String := ["Last name", "last_name"]

/-- `AliasChoices('Company name', 'Company', 'organization')`. -/
def companyAliases : List String := ["Company name", "Company", "organization"]

/-- `AliasChoices('LinkedIn', 'linkedin_url')`. -/
def linkedinAliases : List String := ["LinkedIn", "linkedin_url"]

/-- `seed_database` line 78: the literal key list excluded from `custom_data`. -/
def core_aliases : List String :=
  ["First name", "Last name", "Company name", "Company", "Email", "LinkedIn"]

/-- The alias-resolved email slot of a cleaned row. -/
def resolvedEmail (clean : List (String × String)) : Option String :=
  lookupFirst clean emailAliases

/-- The normalized record produced by `ContactCreate` (`seed_database`
lines 15–25): core attribute slots plus the flexible `custom_data` document. -/
structure ContactCreate where
  email : String
  first_name : Option String := none
  last_name : Option String := none
  company_name : Option String := none
  linkedin_url : Option String := none
  owner_id : Option String := none
  custom_data : List (String × String) := []
deriving DecidableEq, Repr

/-- Python dict assignment `d[k] = v` on a string-keyed map. -/
def setKey (m : List (String × String)) (k v : String) : List (String × String) :=
  (m.filter fun kv => !(kv.1 == k)) ++ [(k, v)]

/-- `ContactCreate(**clean_dict)` followed by the `custom_data` assignments of
`seed_database` lines 76–80.  Pydantic validation is a function of the cleaned
row; it is abstracted by the oracle `ok` (in the source the only genuine
failure is `EmailStr` rejecting a malformed address).  Returns `none` when
construction raises. -/
def buildContact (ok : List (String × String) → Bool) (sheet : String)
    (clean : List (String × String)) : Option ContactCreate :=
  match lookupFirst clean emailAliases with
  | none => none
  | some e =>
    if ok clean then
      some
        { email := e
          first_name := lookupFirst clean firstNameAliases
          last_name := lookupFirst clean lastNameAliases
          company_name := lookupFirst clean companyAliases
          linkedin_url := lookupFirst clean linkedinAliases
          owner_id := none
          custom_data :=
            setKey (clean.filter fun kv => !(core_aliases.contains kv.1))
              "original_sheet" sheet }
    else none

/-- The mutable state of one ingestion run: the seen-email set
(`seen_emails`) and the queued records (`records_to_insert`). -/
structure RunState where
  seen : List String
  records : List ContactCreate
deriving DecidableEq, Repr

/-- One iteration of the row loop of `seed_database` (lines 59–88):
`raw_email = clean_dict.get('Email')`; skip when missing, empty or without an
`'@'`; skip when the lower-cased email is already seen; otherwise attempt
`ContactCreate` and, only on success, queue the record and mark the
lower-cased email as seen (`except: pass` swallows a failure). -/
def processRow (ok : List (String × String) → Bool) (sheet : String)
    (st : RunState) (row : RawRow) : RunState :=
  let clean := cleanRow row
  match clean.lookup "Email" with
  | none => st
  | some raw =>
    if raw = "" || !(pyContainsChar raw '@') then st
    else
      let ce := pyLower raw
      if st.seen.contains ce then st
      else
        match buildContact ok sheet clean with
        | some c => { seen := st.seen ++ [ce], records := st.records ++ [c] }
        | none => st

/-- One sheet of `seed_database`: the seen set is seeded with the store's
ownerless emails verbatim (line 47, `{row['email'] for row in res.data}`) and
the rows are folded in source order. -/
def seedSheet (ok : List (String × String) → Bool) (sheet : String)
    (storeEmails : List String) (rows : List RawRow) : RunState :=
  rows.foldl (processRow ok sheet) { seen := storeEmails, records := [] }

/-- Occurrence of a pattern at the head of a character list (component of
the SQL `ILIKE '%t%'` semantics). -/
def subAt : List Char → List Char → Bool
  | [], _ => true
  | _ :: _, [] => false
  | a :: as, b :: bs => a == b && subAt as bs

/-- Occurrence of a pattern anywhere in a character list. -/
def subIn (n : List Char) : List Char → Bool
  | [] => subAt n []
  | b :: bs => subAt n (b :: bs) || subIn n bs

/-- SQL `field ILIKE '%t%'`: case-insensitive substring match. -/
def ilikeSub (field t : String) : Bool :=
  subIn (pyLower t).data (pyLower field).data

/-- `ILIKE` over a nullable column: a NULL field never matches. -/
def optIlike (field : Option String) (t : String) : Bool :=
  match field with
  | none => false
  | some s => ilikeSub s t

/-- A stored row of the `contacts` table as seen by the search endpoint. -/
structure ContactRow where
  email : String
  first_name : Option String := none
  last_name : Option String := none
  company_name : Option String := none
  linkedin_url : Option String := none
  owner_id : Option String := none
  custom_data : List (String × String) := []
deriving DecidableEq, Repr

/-- The optional filter parameters of `search_global_contacts`
(`src/main.py` lines 59–66). -/
structure SearchFilters where
  q : Option String := none
  industry : Option String := none
  country : Option String := none
  title : Option String := none
  company_size : Option String := none
  source_sheet : Option String := none
deriving DecidableEq, Repr

/-- Python truthiness of an optional string parameter (`if q:`): the filter
is active exactly when the parameter is present and non-empty. -/
def activeParam : Option String → Bool
  | none => false
  | some t => !(t == "")

/-- Conjoin a filter condition only when the parameter is active. -/
def applyParam (p : Option String) (pred : String → Bool) : Bool :=
  match p with
  | none => true
  | some t => if t = "" then true else pred t

/-- `custom_data->>k`: JSONB text extraction, NULL when the key is absent. -/
def jsonGet (c : ContactRow) (k : String) : Option String :=
  c.custom_data.lookup k

/-- `query.ilike("custom_data->>k", f"%t%")`. -/
def jsonIlike (c : ContactRow) (k t : String) : Bool :=
  optIlike (jsonGet c k) t

/-- `query.eq("custom_data->>k", t)`: exact match, NULL never matches. -/
def jsonEqField (c : ContactRow) (k t : String) : Bool :=
  match jsonGet c k with
  | none => false
  | some v => v == t

/-- The `or_` disjunction of `src/main.py` line 81: case-insensitive
substring match across first name, last name, company name and email. -/
def qMatch (c : ContactRow) (t : String) : Bool :=
  optIlike c.first_name t || optIlike c.last_name t ||
    optIlike c.company_name t || ilikeSub c.email t

/-- The compiled predicate of `search_global_contacts` lines 76–94: the base
query selects the ownerless partition (`is_("owner_id", "null")`) and each
active parameter conjoins exactly one condition. -/
def matchesFilters (f : SearchFilters) (c : ContactRow) : Bool :=
  c.owner_id == none &&
  applyParam f.q (qMatch c) &&
  applyParam f.industry (jsonIlike c "Industry") &&
  applyParam f.country (jsonIlike c "Company Country") &&
  applyParam f.title (jsonIlike c "Title") &&
  applyParam f.company_size (jsonEqField c "Company Size") &&
  applyParam f.source_sheet (jsonIlike c "original_sheet")

/-- `start_idx = (page - 1) * page_size` (`src/main.py` line 97). -/
def start_idx (page page_size : Nat) : Nat := (page - 1) * page_size

/-- `end_idx = start_idx + page_size - 1` (`src/main.py` line 98). -/
def end_idx (page page_size : Nat) : Nat :=
  start_idx page page_size + page_size - 1

/-- `total_pages = math.ceil(total_count / page_size) if total_count > 0
else 0` (`src/main.py` line 105). -/
def total_pages (total_count page_size : Nat) : Nat :=
  if 0 < total_count then (total_count + page_size - 1) / page_size else 0

/-- Modelled from the spec: this revision's `search_global_contacts` has no
has-professional-network-URL parameter (the tri-state filter belongs to the
FilterCompiler of §4.5 in other revisions of the source).  `urlEmpty` is the
SQL emptiness test the spec compiles the flag to: absent or empty string. -/
def urlEmpty : Option String → Bool
  | none => true
  | some s => s == ""

/-- Modelled from the spec: the predicate contributed by the tri-state
has-URL flag — `true` compiles to "field is not empty", `false` to "field is
empty", unset to no predicate at all. -/
def hasUrlMatch : Option Bool → Option String → Bool
  | none, _ => true
  | some true, u => !(urlEmpty u)
  | some false, u => urlEmpty u

/-- Modelled from the spec: the search predicate extended with the tri-state
has-URL flag; every other filter is compiled exactly as in this revision. -/
def matchesFiltersUrl (f : SearchFilters) (hasUrl : Option Bool)
    (c : ContactRow) : Bool :=
  matchesFilters f c && hasUrlMatch hasUrl c.linkedin_url

/-- The slicing loop of `seed_database` lines 95–97:
`records[i : i + chunk_size]` for `i = 0, chunk_size, 2 * chunk_size, ...`
partitions the list into contiguous chunks. -/
def chunksOf : Nat → List α → List (List α)
  | _, [] => []
  | 0, _ :: _ => []
  | n + 1, a :: l =>
    (a :: l).take (n + 1) :: chunksOf (n + 1) ((a :: l).drop (n + 1))
termination_by _ l => l.length
decreasing_by
  simp only [List.length_drop, List.length_cons]
  omega

/-- `chunk_size = 500` (`seed_database` line 95). -/
def chunk_size : Nat := 500

/-- The batch insert loop of `seed_database` lines 95–103: each chunk is
submitted exactly once; the outcome oracle `insertOk` abstracts
`supabase.table('contacts').insert(chunk).execute()`; a failing chunk is
reported (`except ... print`) and the loop continues with the next chunk. -/
def batchInsert (insertOk : List ContactCreate → Bool)
    (records : List ContactCreate) : List (List ContactCreate × Bool) :=
  (chunksOf chunk_size records).map fun ch => (ch, insertOk ch)

/-- Modelled from the spec: the store behind the save-link endpoint is not
under `src/` (only the SQL constraints are referred to by `src/main.py`'s
error handling).  Per §6, the `user_contacts` table carries a UNIQUE
constraint on the (user_id, contact_id) pair and FOREIGN KEY constraints to
the `users` and `contacts` tables. -/
structure LinkStore where
  users : List String
  contacts : List String
  links : List (Nat × String × String)
  next_id : Nat
deriving DecidableEq, Repr

/-- Modelled from the spec: the outcome of the store-level insert into
`user_contacts` — success with the new row id and store, duplicate-key
violation, or foreign-key violation. -/
inductive InsertOutcome where
  | inserted (id : Nat) (st : LinkStore)
  | dupKey
  | fkViolation
deriving Repr

/-- Modelled from the spec: `insert_link` checked against the UNIQUE
(user_id, contact_id) constraint and the FOREIGN KEY constraints. -/
def insertLink (st : LinkStore) (user_id contact_id : String) : InsertOutcome :=
  if st.links.any fun l => l.2.1 == user_id && l.2.2 == contact_id then
    .dupKey
  else if st.users.contains user_id && st.contacts.contains contact_id then
    .inserted st.next_id
      { st with
          links := st.links ++ [(st.next_id, user_id, contact_id)],
          next_id := st.next_id + 1 }
  else .fkViolation

/-- The three distinguishable responses of `save_contact_to_workspace`:
HTTP 200 with the new workspace id, 409 conflict, 400 invalid reference. -/
inductive SaveResponse where
  | success (workspace_contact_id : Nat)
  | conflict
  | invalidReference
deriving DecidableEq, Repr

/-- `save_contact_to_workspace` (`src/main.py` lines 139–177): attempt the
insert; a duplicate-key error is mapped to 409 Conflict and a foreign-key
error to 400 Bad Request, leaving the store unchanged. -/
def save_contact_to_workspace (st : LinkStore) (user_id contact_id : String) :
    SaveResponse × LinkStore :=
  match insertLink st user_id contact_id with
  | .inserted id st2 => (.success id, st2)
  | .dupKey => (.conflict, st)
  | .fkViolation => (.invalidReference, st)

/-- The trivially-true validation oracle: rows that pydantic accepts. -/
def okAll : List (String × String) → Bool := fun _ => true

/-- A minimal normalized record used to build concrete batches. -/
def sampleC (s : String) : ContactCreate := { email := s }

/-- A concrete 500-record chunk (records built from `a@x.com`). -/
def wchA : List ContactCreate := List.replicate 500 (sampleC "a@x.com")

/-- A concrete 500-record chunk (records built from `b@x.com`). -/
def wchB : List ContactCreate := List.replicate 500 (sampleC "b@x.com")

/-- A concrete 200-record chunk (records built from `c@x.com`). -/
def wchC : List ContactCreate := List.replicate 200 (sampleC "c@x.com")

/-- An outcome oracle that fails exactly the chunks headed by `b@x.com`. -/
def wchOk : List ContactCreate → Bool :=
  fun ch => !(ch.head? == some (sampleC "b@x.com"))

/-- A validation oracle that rejects exactly the rows carrying a `bad` key
(standing for a pydantic failure unrelated to the dedup gate). -/
def okNoBad : List (String × String) → Bool :=
  fun clean => clean.lookup "bad" == none

/-- A concrete link store with one tenant and one contact and no links. -/
def wStore : LinkStore :=
  { users := ["u1"], contacts := ["c1"], links := [], next_id := 0 }

/-! Helper lemmas about the row loop, alias resolution, the filter
compiler, the chunking loop and the paginator arithmetic. -/

/-- A row whose cleaned dict has no `Email` key is skipped. -/
theorem processRow_no_email (ok : List (String × String) → Bool) (sheet : String)
    (st : RunState) (row : RawRow)
    (hE : (cleanRow row).lookup "Email" = none) :
    processRow ok sheet st row = st := by
  simp only [processRow, hE]

/-- A row whose `Email` cell is empty or has no `@` is skipped. -/
theorem processRow_gate_fail (ok : List (String × String) → Bool) (sheet : String)
    (st : RunState) (row : RawRow) (e : String)
    (hE : (cleanRow row).lookup "Email" = some e)
    (hbad : e = "" ∨ pyContainsChar e '@' = false) :
    processRow ok sheet st row = st := by
  simp only [processRow, hE]
  have hcond : (e = "" || !(pyContainsChar e '@')) = true := by
    rcases hbad with h | h <;> simp [h]
  simp [hcond]

/-- Characterization of the row loop once the email gate passes: the
lower-cased `Email` cell is checked against the seen set, and on acceptance
the record is queued and the lowered email marked seen. -/
theorem processRow_eq (ok : List (String × String) → Bool) (sheet : String)
    (st : RunState) (row : RawRow) (e : String)
    (hE : (cleanRow row).lookup "Email" = some e)
    (he : e ≠ "") (hat : pyContainsChar e '@' = true) :
    processRow ok sheet st row =
      if st.seen.contains (pyLower e) then st
      else
        match buildContact ok sheet (cleanRow row) with
        | some c => { seen := st.seen ++ [pyLower e], records := st.records ++ [c] }
        | none => st := by
  simp only [processRow, hE]
  have hcond : (e = "" || !(pyContainsChar e '@')) = false := by simp [he, hat]
  simp [hcond]

/-- A row on which record construction raises leaves the run state —
including the seen set — untouched. -/
theorem processRow_build_none (ok : List (String × String) → Bool) (sheet : String)
    (st : RunState) (row : RawRow)
    (h : buildContact ok sheet (cleanRow row) = none) :
    processRow ok sheet st row = st := by
  cases hE : (cleanRow row).lookup "Email" with
  | none => exact processRow_no_email ok sheet st row hE
  | some e =>
    by_cases he : e = ""
    · exact processRow_gate_fail ok sheet st row e hE (Or.inl he)
    · cases hat : pyContainsChar e '@' with
      | false => exact processRow_gate_fail ok sheet st row e hE (Or.inr hat)
      | true =>
        rw [processRow_eq ok sheet st row e hE he hat, h]
        split <;> rfl

/-- When the literal `Email` key is present, it is the alias the resolver
picks (it heads the alias list). -/
theorem resolvedEmail_of_lookup (clean : List (String × String)) (v : String)
    (h : clean.lookup "Email" = some v) : resolvedEmail clean = some v := by
  simp [resolvedEmail, emailAliases, lookupFirst, h]

/-- A successful association-list lookup is a membership. -/
theorem lookup_mem {β : Type} (l : List (String × β)) (k : String) (v : β)
    (h : l.lookup k = some v) : (k, v) ∈ l := by
  induction l with
  | nil => simp at h
  | cons p l ih =>
    obtain ⟨k1, v1⟩ := p
    by_cases hk : k == k1
    · simp only [List.lookup, hk] at h
      cases h
      have : k = k1 := eq_of_beq hk
      subst this
      exact List.mem_cons_self _ _
    · simp only [List.lookup, Bool.not_eq_true] at h
      rw [Bool.eq_false_iff.mpr hk] at h
      exact List.mem_cons_of_mem _ (ih h)

/-- A value delivered by alias resolution comes from some key of the
cleaned row. -/
theorem lookupFirst_mem (clean : List (String × String)) (aliases : List String)
    (v : String) (h : lookupFirst clean aliases = some v) :
    ∃ k, (k, v) ∈ clean := by
  induction aliases with
  | nil => simp [lookupFirst] at h
  | cons a rest ih =>
    rw [lookupFirst] at h
    cases hl : clean.lookup a with
    | none => rw [hl] at h; exact ih h
    | some w =>
      rw [hl] at h
      cases h
      exact ⟨a, lookup_mem clean a _ hl⟩

/-- An optional filter contributes its condition exactly when present and
non-empty. -/
theorem applyParam_eq_true (p : Option String) (pred : String → Bool) :
    applyParam p pred = true ↔ ∀ t, p = some t → t ≠ "" → pred t = true := by
  cases p with
  | none => simp [applyParam]
  | some t =>
    by_cases ht : t = ""
    · subst ht
      simp [applyParam]
    · simp [applyParam, ht]

/-- Removing a filter (or keeping it) preserves satisfaction of the
compiled condition. -/
theorem applyParam_mono (p p2 : Option String) (pred : String → Bool)
    (h : p2 = none ∨ p2 = p) (hp : applyParam p pred = true) :
    applyParam p2 pred = true := by
  rcases h with h | h
  · subst h; rfl
  · subst h; exact hp

/-- The chunks concatenate back to the original record list. -/
theorem chunksOf_flatten (n : Nat) (l : List α) :
    (chunksOf (n + 1) l).flatten = l := by
  match l with
  | [] => simp [chunksOf]
  | a :: l =>
    rw [chunksOf]
    rw [List.flatten_cons]
    rw [chunksOf_flatten n ((a :: l).drop (n + 1))]
    exact List.take_append_drop _ _
termination_by l.length
decreasing_by
  simp only [List.length_drop, List.length_cons]
  omega

/-- Every chunk is non-empty and no longer than the chunk size. -/
theorem chunksOf_mem_len (n : Nat) (l : List α) :
    ∀ c ∈ chunksOf (n + 1) l, 0 < c.length ∧ c.length ≤ n + 1 := by
  match l with
  | [] => simp [chunksOf]
  | a :: l =>
    intro c hc
    rw [chunksOf] at hc
    rcases List.mem_cons.mp hc with h | h
    · subst h
      constructor
      · simp
      · exact List.length_take_le (n + 1) (a :: l)
    · exact chunksOf_mem_len n ((a :: l).drop (n + 1)) c h
termination_by l.length
decreasing_by
  simp only [List.length_drop, List.length_cons]
  omega

/-- Every chunk except possibly the last has exactly the chunk size. -/
theorem chunksOf_dropLast_len (n : Nat) (l : List α) :
    ∀ c ∈ (chunksOf (n + 1) l).dropLast, c.length = n + 1 := by
  match l with
  | [] => simp [chunksOf]
  | a :: l =>
    intro c hc
    rw [chunksOf] at hc
    by_cases hrest : chunksOf (n + 1) ((a :: l).drop (n + 1)) = []
    · rw [hrest] at hc
      simp at hc
    · rw [List.dropLast_cons_of_ne_nil hrest] at hc
      rcases List.mem_cons.mp hc with h | h
      · subst h
        have hd : (a :: l).drop (n + 1) ≠ [] := by
          intro hnil
          exact hrest (by rw [hnil]; simp [chunksOf])
        have hlen : n + 1 ≤ (a :: l).length := by
          by_contra hlt
          exact hd (List.drop_eq_nil_of_le (by omega))
        simp only [List.length_take, List.length_cons] at hlen ⊢
        omega
      · exact chunksOf_dropLast_len n ((a :: l).drop (n + 1)) c h
termination_by l.length
decreasing_by
  simp only [List.length_drop, List.length_cons]
  omega

/-- Chunking splits off an exactly-full first chunk. -/
theorem chunksOf_append (n : Nat) (l r : List α) (h : l.length = n + 1) :
    chunksOf (n + 1) (l ++ r) = l :: chunksOf (n + 1) r := by
  match l, h with
  | a :: l, h =>
    have h1 : ((a :: l) ++ r).take (n + 1) = a :: l := by
      rw [← h]
      exact List.take_left _ _
    have h2 : ((a :: l) ++ r).drop (n + 1) = r := by
      rw [← h]
      exact List.drop_left _ _
    rw [List.cons_append, chunksOf, ← List.cons_append, h1, h2]

/-- A non-empty list not exceeding the chunk size is a single chunk. -/
theorem chunksOf_of_le (n : Nat) (l : List α) (hne : l ≠ [])
    (hle : l.length ≤ n + 1) : chunksOf (n + 1) l = [l] := by
  match l, hne with
  | a :: l, _ =>
    rw [chunksOf, List.take_of_length_le hle, List.drop_eq_nil_of_le hle]
    simp [chunksOf]

/-- The guarded add-and-divide of the source computes the rational ceiling. -/
theorem total_pages_eq_ceil (total_count page_size : Nat) (h1 : 1 ≤ page_size) :
    total_pages total_count page_size = ⌈(total_count : ℚ) / (page_size : ℚ)⌉₊ := by
  have hps : (0 : ℚ) < (page_size : ℚ) := by exact_mod_cast h1
  rcases Nat.eq_zero_or_pos total_count with h0 | hpos
  · subst h0
    simp [total_pages]
  · have hq := Nat.div_add_mod (total_count + page_size - 1) page_size
    have hr : (total_count + page_size - 1) % page_size < page_size :=
      Nat.mod_lt _ (by omega)
    set q := (total_count + page_size - 1) / page_size with hqdef
    set r := (total_count + page_size - 1) % page_size with hrdef
    have hqpos : q ≠ 0 := by
      intro hzero
      rw [hzero, Nat.mul_zero] at hq
      omega
    have e1 : (q - 1) * page_size = page_size * q - page_size := by
      rw [Nat.sub_one_mul, Nat.mul_comm]
    have e2 : q * page_size = page_size * q := Nat.mul_comm _ _
    have f1 : (q - 1) * page_size < total_count := by omega
    have f2 : total_count ≤ q * page_size := by omega
    rw [total_pages, if_pos hpos]
    symm
    rw [Nat.ceil_eq_iff hqpos]
    constructor
    · rw [lt_div_iff₀ hps]
      exact_mod_cast f1
    · rw [div_le_iff₀ hps]
      exact_mod_cast f2

/-- C1 (amended): for each ingestion row the accept/reject key is the
lower-cased cleaned `Email` cell, checked against the current seen set and
added to it on acceptance; since the seen set is seeded verbatim from the
store's ownerless emails, dedup is case-insensitive against earlier rows of
the run and against store emails stored in lower case; the concrete
scenario — store holding `a@x.com`, batch `A@X.com`, `b@x.com`, `b@x.com` —
accepts exactly one record, `b@x.com`. -/
theorem dedup_lowercase_key :
    (seedSheet okAll "S" ["a@x.com"]
      [[("Email", Cell.str "A@X.com")], [("Email", Cell.str "b@x.com")],
       [("Email", Cell.str "b@x.com")]]).records.map ContactCreate.email = ["b@x.com"] ∧
    (∀ ok sheet (st : RunState) (row : RawRow) (e : String) (c : ContactCreate),
      (cleanRow row).lookup "Email" = some e → e ≠ "" → pyContainsChar e '@' = true →
      buildContact ok sheet (cleanRow row) = some c →
      processRow ok sheet st row =
        if st.seen.contains (pyLower e) then st
        else { seen := st.seen ++ [pyLower e], records := st.records ++ [c] }) := by
  constructor
  · decide
  · intro ok sheet st row e c hE he hat hb
    rw [processRow_eq ok sheet st row e hE he hat, hb]

/-- C1 as stated is false: with the store holding the mixed-case email
`A@x.com`, the case-variant row `a@x.com` is accepted rather than dropped,
because the seen set is seeded with the store's emails verbatim while the
incoming key is lower-cased. -/
theorem dedup_case_insensitive_counterexample :
    (seedSheet okAll "S" ["A@x.com"] [[("Email", Cell.str "a@x.com")]]).records.map
        ContactCreate.email = ["a@x.com"] := by decide

/-- Witness for C1's amended theorem at a concrete accepted row. -/
theorem dedup_lowercase_key_witness :
    (cleanRow [("Email", Cell.str "C@x.com")]).lookup "Email" = some "C@x.com" ∧
    "C@x.com" ≠ "" ∧ pyContainsChar "C@x.com" '@' = true ∧
    buildContact okAll "S" (cleanRow [("Email", Cell.str "C@x.com")]) =
      some { email := "C@x.com", custom_data := [("original_sheet", "S")] } ∧
    processRow okAll "S" ⟨["z@x.com"], []⟩ [("Email", Cell.str "C@x.com")] =
      (if (["z@x.com"] : List String).contains (pyLower "C@x.com")
       then (⟨["z@x.com"], []⟩ : RunState)
       else ⟨["z@x.com"] ++ [pyLower "C@x.com"],
             [] ++ [{ email := "C@x.com", custom_data := [("original_sheet", "S")] }]⟩) :=
  ⟨by decide, by decide, by decide, by decide,
    dedup_lowercase_key.2 okAll "S" ⟨["z@x.com"], []⟩ [("Email", Cell.str "C@x.com")]
      "C@x.com" { email := "C@x.com", custom_data := [("original_sheet", "S")] }
      (by decide) (by decide) (by decide) (by decide)⟩

/-- C2: for every page number at least 1 and page size in 1..100, the
paginator requests the closed index range
[(page-1)*size, (page-1)*size + size - 1] from the store, and the returned
total_pages equals the ceiling of total_count / page_size, with
total_pages = 0 exactly when total_count = 0. -/
theorem paginator_spec (page page_size total_count : Nat)
    (hpage : 1 ≤ page) (h1 : 1 ≤ page_size) (h2 : page_size ≤ 100) :
    start_idx page page_size = (page - 1) * page_size ∧
    end_idx page page_size = (page - 1) * page_size + page_size - 1 ∧
    total_pages total_count page_size = ⌈(total_count : ℚ) / (page_size : ℚ)⌉₊ ∧
    (total_pages total_count page_size = 0 ↔ total_count = 0) := by
  refine ⟨rfl, rfl, total_pages_eq_ceil total_count page_size h1, ?_⟩
  constructor
  · intro h
    by_contra hne
    have hpos : 0 < total_count := Nat.pos_of_ne_zero hne
    rw [total_pages, if_pos hpos] at h
    have hle : page_size ≤ total_count + page_size - 1 := by omega
    have := (Nat.one_le_div_iff (by omega : 0 < page_size)).mpr hle
    omega
  · intro h
    subst h
    simp [total_pages]

/-- Witness for C2 at page 3, page size 50, total count 101. -/
theorem paginator_spec_witness :
    1 ≤ 3 ∧ 1 ≤ 50 ∧ 50 ≤ 100 ∧
      (start_idx 3 50 = (3 - 1) * 50 ∧
       end_idx 3 50 = (3 - 1) * 50 + 50 - 1 ∧
       total_pages 101 50 = ⌈(101 : ℚ) / (50 : ℚ)⌉₊ ∧
       (total_pages 101 50 = 0 ↔ 101 = 0)) :=
  ⟨by norm_num, by norm_num, by norm_num,
    paginator_spec 3 50 101 (by norm_num) (by norm_num) (by norm_num)⟩

/-- C3: the compiled search predicate is the conjunction of exactly the
active filters, always additionally constrained to ownerless records;
omitting every filter matches all ownerless records; and removing any
subset of the filters never narrows the matched set. -/
theorem filter_conjunction :
    (∀ (f : SearchFilters) (c : ContactRow),
      matchesFilters f c = true ↔
        (c.owner_id = none ∧
         (∀ t, f.q = some t → t ≠ "" → qMatch c t = true) ∧
         (∀ t, f.industry = some t → t ≠ "" → jsonIlike c "Industry" t = true) ∧
         (∀ t, f.country = some t → t ≠ "" → jsonIlike c "Company Country" t = true) ∧
         (∀ t, f.title = some t → t ≠ "" → jsonIlike c "Title" t = true) ∧
         (∀ t, f.company_size = some t → t ≠ "" → jsonEqField c "Company Size" t = true) ∧
         (∀ t, f.source_sheet = some t → t ≠ "" → jsonIlike c "original_sheet" t = true))) ∧
    (∀ c : ContactRow, matchesFilters {} c = true ↔ c.owner_id = none) ∧
    (∀ (f f2 : SearchFilters) (c : ContactRow),
      (f2.q = none ∨ f2.q = f.q) → (f2.industry = none ∨ f2.industry = f.industry) →
      (f2.country = none ∨ f2.country = f.country) → (f2.title = none ∨ f2.title = f.title) →
      (f2.company_size = none ∨ f2.company_size = f.company_size) →
      (f2.source_sheet = none ∨ f2.source_sheet = f.source_sheet) →
      matchesFilters f c = true → matchesFilters f2 c = true) := by
  refine ⟨?_, ?_, ?_⟩
  · intro f c
    simp only [matchesFilters, Bool.and_eq_true, applyParam_eq_true, beq_iff_eq, and_assoc]
  · intro c
    simp [matchesFilters, applyParam, beq_iff_eq]
  · intro f f2 c hq hi hco ht hs hsh hm
    simp only [matchesFilters, Bool.and_eq_true] at hm ⊢
    obtain ⟨⟨⟨⟨⟨⟨ho, h1⟩, h2⟩, h3⟩, h4⟩, h5⟩, h6⟩ := hm
    exact ⟨⟨⟨⟨⟨⟨ho, applyParam_mono _ _ _ hq h1⟩, applyParam_mono _ _ _ hi h2⟩,
      applyParam_mono _ _ _ hco h3⟩, applyParam_mono _ _ _ ht h4⟩,
      applyParam_mono _ _ _ hs h5⟩, applyParam_mono _ _ _ hsh h6⟩

/-- Witness for C3: dropping the industry filter keeps a matching record
matching. -/
theorem filter_conjunction_witness :
    (({ q := some "ada", industry := some "tech" } : SearchFilters).q = none ∨
      ({ q := some "ada", industry := some "tech" } : SearchFilters).q =
      ({ q := some "ada", industry := some "tech" } : SearchFilters).q) ∧
    matchesFilters { q := some "ada", industry := some "tech" }
      { email := "ada@x.com", first_name := some "Ada",
        custom_data := [("Industry", "Fintech")] } = true ∧
    matchesFilters { q := some "ada" }
      { email := "ada@x.com", first_name := some "Ada",
        custom_data := [("Industry", "Fintech")] } = true :=
  ⟨Or.inr rfl, by decide,
    (filter_conjunction.2.2 { q := some "ada", industry := some "tech" } { q := some "ada" }
      { email := "ada@x.com", first_name := some "Ada",
        custom_data := [("Industry", "Fintech")] }
      (Or.inr rfl) (Or.inl rfl) (Or.inl rfl) (Or.inl rfl) (Or.inl rfl) (Or.inl rfl)
      (by decide))⟩

/-- C4: the tri-state has-URL filter — `some true` excludes exactly the
base-matching records whose URL is empty or absent, `some false` excludes
exactly those with a non-empty URL, and `none` compiles to no predicate so
records with and without a URL are both included. -/
theorem has_url_tristate (f : SearchFilters) (c : ContactRow)
    (hbase : matchesFilters f c = true) :
    (urlEmpty c.linkedin_url = true →
      matchesFiltersUrl f (some true) c = false ∧
      matchesFiltersUrl f (some false) c = true) ∧
    (urlEmpty c.linkedin_url = false →
      matchesFiltersUrl f (some true) c = true ∧
      matchesFiltersUrl f (some false) c = false) ∧
    matchesFiltersUrl f none c = true := by
  refine ⟨fun h => ?_, fun h => ?_, ?_⟩
  · simp [matchesFiltersUrl, hasUrlMatch, hbase, h]
  · simp [matchesFiltersUrl, hasUrlMatch, hbase, h]
  · simp [matchesFiltersUrl, hasUrlMatch, hbase]

/-- Witness for C4 on a record without and a record with a URL. -/
theorem has_url_tristate_witness :
    matchesFilters {} { email := "e@x.com" } = true ∧
    matchesFilters {} { email := "f@x.com", linkedin_url := some "https://li.in/f" } = true ∧
    (urlEmpty ({ email := "e@x.com" } : ContactRow).linkedin_url = true →
      matchesFiltersUrl {} (some true) { email := "e@x.com" } = false ∧
      matchesFiltersUrl {} (some false) { email := "e@x.com" } = true) ∧
    (urlEmpty ({ email := "f@x.com", linkedin_url := some "https://li.in/f" } :
        ContactRow).linkedin_url = false →
      matchesFiltersUrl {} (some true)
        { email := "f@x.com", linkedin_url := some "https://li.in/f" } = true ∧
      matchesFiltersUrl {} (some false)
        { email := "f@x.com", linkedin_url := some "https://li.in/f" } = false) ∧
    matchesFiltersUrl {} none { email := "e@x.com" } = true :=
  ⟨by decide, by decide,
    (has_url_tristate {} { email := "e@x.com" } (by decide)).1,
    (has_url_tristate {} { email := "f@x.com", linkedin_url := some "https://li.in/f" }
      (by decide)).2.1,
    (has_url_tristate {} { email := "e@x.com" } (by decide)).2.2⟩

/-- C5: the batch writer partitions the records into contiguous,
order-preserving chunks of the fixed size 500 (the last possibly shorter),
attempts every chunk exactly once with an outcome independent of every
other chunk's outcome, and 1200 records yield exactly the three attempts
of sizes 500, 500 and 200 whatever the middle chunk's outcome. -/
theorem batch_writer_spec (insertOk : List ContactCreate → Bool)
    (records : List ContactCreate) :
    (chunksOf chunk_size records).flatten = records ∧
    (∀ ch ∈ chunksOf chunk_size records, 0 < ch.length ∧ ch.length ≤ chunk_size) ∧
    (∀ ch ∈ (chunksOf chunk_size records).dropLast, ch.length = chunk_size) ∧
    batchInsert insertOk records =
      (chunksOf chunk_size records).map (fun ch => (ch, insertOk ch)) ∧
    (∀ A B C : List ContactCreate,
      A.length = 500 → B.length = 500 → C.length = 200 →
      batchInsert insertOk (A ++ B ++ C) =
        [(A, insertOk A), (B, insertOk B), (C, insertOk C)]) := by
  have h5 : chunk_size = 499 + 1 := rfl
  refine ⟨?_, ?_, ?_, rfl, ?_⟩
  · rw [h5]
    exact chunksOf_flatten 499 records
  · rw [h5]
    exact chunksOf_mem_len 499 records
  · rw [h5]
    exact chunksOf_dropLast_len 499 records
  · intro A B C hA hB hC
    have hCne : C ≠ [] := by
      intro h
      rw [h] at hC
      simp at hC
    rw [batchInsert, h5, List.append_assoc,
      chunksOf_append 499 A (B ++ C) (by omega),
      chunksOf_append 499 B C (by omega),
      chunksOf_of_le 499 C hCne (by omega)]
    simp

/-- Witness for C5: 1200 concrete records where the middle chunk fails and
the third chunk is still attempted. -/
theorem batch_writer_spec_witness :
    wchA.length = 500 ∧ wchB.length = 500 ∧ wchC.length = 200 ∧
    wchOk wchA = true ∧ wchOk wchB = false ∧ wchOk wchC = true ∧
    batchInsert wchOk (wchA ++ wchB ++ wchC) =
      [(wchA, wchOk wchA), (wchB, wchOk wchB), (wchC, wchOk wchC)] :=
  ⟨by simp only [wchA, List.length_replicate], by simp only [wchB, List.length_replicate],
    by simp only [wchC, List.length_replicate],
    by decide, by decide, by decide,
    (batch_writer_spec wchOk (wchA ++ wchB ++ wchC)).2.2.2.2 wchA wchB wchC
      (by simp only [wchA, List.length_replicate])
      (by simp only [wchB, List.length_replicate])
      (by simp only [wchC, List.length_replicate])⟩

/-- C6 (amended): a row is always rejected when its alias-resolved email is
empty or lacks an `@` (no record produced, no side effect), and a row passes
the identity gate only when the literal `Email` key holds a non-empty
`@`-containing value — so the converse of the original claim fails for
rows carrying their email only under the `email`/`work_email` aliases. -/
theorem email_gate_spec :
    (∀ ok sheet (st : RunState) (row : RawRow),
      (∀ e, resolvedEmail (cleanRow row) = some e →
        e = "" ∨ pyContainsChar e '@' = false) →
      processRow ok sheet st row = st) ∧
    (∀ ok sheet (st : RunState) (row : RawRow),
      processRow ok sheet st row ≠ st →
      ∃ e, (cleanRow row).lookup "Email" = some e ∧ e ≠ "" ∧
        pyContainsChar e '@' = true) := by
  constructor
  · intro ok sheet st row h
    cases hE : (cleanRow row).lookup "Email" with
    | none => exact processRow_no_email ok sheet st row hE
    | some e =>
      exact processRow_gate_fail ok sheet st row e hE
        (h e (resolvedEmail_of_lookup _ e hE))
  · intro ok sheet st row h
    cases hE : (cleanRow row).lookup "Email" with
    | none => exact absurd (processRow_no_email ok sheet st row hE) h
    | some e =>
      by_cases he : e = ""
      · exact absurd (processRow_gate_fail ok sheet st row e hE (Or.inl he)) h
      · cases hat : pyContainsChar e '@' with
        | false => exact absurd (processRow_gate_fail ok sheet st row e hE (Or.inr hat)) h
        | true => exact ⟨e, rfl, he, hat⟩

/-- C6 as stated is false: a row carrying its email only under the
lower-case `email` alias has a valid resolved email slot — record
construction would even succeed — yet the row is rejected, because
`raw_email = clean_dict.get('Email')` reads only the literal `Email` key. -/
theorem email_gate_counterexample :
    resolvedEmail (cleanRow [("email", Cell.str "x@y.com")]) = some "x@y.com" ∧
    pyContainsChar "x@y.com" '@' = true ∧
    buildContact okAll "S" (cleanRow [("email", Cell.str "x@y.com")]) =
      some { email := "x@y.com",
             custom_data := [("email", "x@y.com"), ("original_sheet", "S")] } ∧
    processRow okAll "S" ⟨[], []⟩ [("email", Cell.str "x@y.com")] = ⟨[], []⟩ := by
  refine ⟨by decide, by decide, by decide, by decide⟩

/-- Witness for C6's amended theorem on a row whose email has no `@`. -/
theorem email_gate_spec_witness :
    (∀ e, resolvedEmail (cleanRow [("Email", Cell.str "no-at-sign")]) = some e →
      e = "" ∨ pyContainsChar e '@' = false) ∧
    processRow okAll "S" ⟨[], []⟩ [("Email", Cell.str "no-at-sign")] = ⟨[], []⟩ :=
  ⟨by decide, email_gate_spec.1 okAll "S" ⟨[], []⟩ [("Email", Cell.str "no-at-sign")]
    (by decide)⟩

/-- C7: saving the same (tenant, contact) pair twice yields one success and
then one distinguishable conflict — never two successes and never a crash —
and a nonexistent tenant or contact id yields a distinguishable
invalid-reference response. -/
theorem save_link_spec (st : LinkStore) (u c v w : String)
    (hu : st.users.contains u = true) (hc : st.contacts.contains c = true)
    (hnew : st.links.any (fun l => l.2.1 == u && l.2.2 == c) = false)
    (hv : st.users.contains v = false)
    (hvnew : st.links.any (fun l => l.2.1 == v && l.2.2 == c) = false)
    (hw : st.contacts.contains w = false)
    (hwnew : st.links.any (fun l => l.2.1 == u && l.2.2 == w) = false) :
    (save_contact_to_workspace st u c).1 = SaveResponse.success st.next_id ∧
    (save_contact_to_workspace (save_contact_to_workspace st u c).2 u c).1 =
      SaveResponse.conflict ∧
    (∀ id2, (save_contact_to_workspace (save_contact_to_workspace st u c).2 u c).1 ≠
      SaveResponse.success id2) ∧
    (save_contact_to_workspace (save_contact_to_workspace st u c).2 u c).2 =
      (save_contact_to_workspace st u c).2 ∧
    (save_contact_to_workspace st v c).1 = SaveResponse.invalidReference ∧
    (save_contact_to_workspace st u w).1 = SaveResponse.invalidReference := by
  have hu2 : u ∈ st.users := by simpa using hu
  have hc2 : c ∈ st.contacts := by simpa using hc
  have hv2 : v ∉ st.users := by simpa using hv
  have hw2 : w ∉ st.contacts := by simpa using hw
  have hfirst : save_contact_to_workspace st u c =
      (SaveResponse.success st.next_id,
        { st with links := st.links ++ [(st.next_id, u, c)], next_id := st.next_id + 1 }) := by
    rw [save_contact_to_workspace, insertLink, hnew]
    simp [hu2, hc2]
  have hsecond : (save_contact_to_workspace
      { st with links := st.links ++ [(st.next_id, u, c)], next_id := st.next_id + 1 } u c).1 =
      SaveResponse.conflict := by
    rw [save_contact_to_workspace, insertLink]
    simp
  refine ⟨?_, ?_, ?_, ?_, ?_, ?_⟩
  · rw [hfirst]
  · rw [hfirst]
    exact hsecond
  · intro id2
    rw [hfirst]
    simp only [hsecond]
    intro hcontra
    cases hcontra
  · rw [hfirst]
    rw [save_contact_to_workspace, insertLink]
    simp
  · rw [save_contact_to_workspace, insertLink, hvnew]
    simp [hv2]
  · rw [save_contact_to_workspace, insertLink, hwnew]
    simp [hw2]

/-- Witness for C7 on a store with one tenant and one contact. -/
theorem save_link_spec_witness :
    wStore.users.contains "u1" = true ∧ wStore.contacts.contains "c1" = true ∧
    wStore.links.any (fun l => l.2.1 == "u1" && l.2.2 == "c1") = false ∧
    wStore.users.contains "u2" = false ∧
    wStore.contacts.contains "c2" = false ∧
    (save_contact_to_workspace wStore "u1" "c1").1 =
      SaveResponse.success wStore.next_id ∧
    (save_contact_to_workspace
      (save_contact_to_workspace wStore "u1" "c1").2 "u1" "c1").1 =
      SaveResponse.conflict ∧
    (save_contact_to_workspace wStore "u2" "c1").1 = SaveResponse.invalidReference ∧
    (save_contact_to_workspace wStore "u1" "c2").1 = SaveResponse.invalidReference := by
  have h := save_link_spec wStore "u1" "c1" "u2" "c2"
    (by decide) (by decide) (by decide) (by decide) (by decide) (by decide) (by decide)
  exact ⟨by decide, by decide, by decide, by decide, by decide,
    h.1, h.2.1, h.2.2.2.2.1, h.2.2.2.2.2⟩

/-- C8: cleaning keeps exactly the non-blank string cells — headers trimmed,
values trimmed — so missing, blank and NaN cells are dropped before alias
resolution, and every core slot and every flexible-document entry of a
produced record (apart from the provenance stamp) comes from the cleaned
row. -/
theorem clean_drops_blank_before_alias (row : RawRow) :
    (∀ ke ve, ((ke, ve) ∈ cleanRow row ↔
      ∃ k s, (k, Cell.str s) ∈ row ∧ pyStrip s ≠ "" ∧ ke = pyStrip k ∧ ve = pyStrip s)) ∧
    (∀ ok sheet c, buildContact ok sheet (cleanRow row) = some c →
      (∃ k, (k, c.email) ∈ cleanRow row) ∧
      (∀ v, c.first_name = some v → ∃ k, (k, v) ∈ cleanRow row) ∧
      (∀ v, c.last_name = some v → ∃ k, (k, v) ∈ cleanRow row) ∧
      (∀ v, c.company_name = some v → ∃ k, (k, v) ∈ cleanRow row) ∧
      (∀ v, c.linkedin_url = some v → ∃ k, (k, v) ∈ cleanRow row) ∧
      (∀ kv ∈ c.custom_data, kv = ("original_sheet", sheet) ∨ kv ∈ cleanRow row)) := by
  constructor
  · intro ke ve
    simp only [cleanRow, List.mem_filterMap]
    constructor
    · rintro ⟨⟨k, cell⟩, hmem, hg⟩
      cases cell with
      | na => simp at hg
      | str s =>
        by_cases hs : pyStrip s = ""
        · simp [hs] at hg
        · simp only [hs, if_false] at hg
          cases hg
          exact ⟨k, s, hmem, hs, rfl, rfl⟩
    · rintro ⟨k, s, hmem, hs, rfl, rfl⟩
      exact ⟨(k, Cell.str s), hmem, by simp [hs]⟩
  · intro ok sheet c hb
    unfold buildContact at hb
    split at hb
    next => cases hb
    next e heq =>
      split at hb
      · cases hb
        refine ⟨?_, ?_, ?_, ?_, ?_, ?_⟩
        · exact lookupFirst_mem _ _ _ heq
        · intro v hv
          exact lookupFirst_mem _ _ _ hv
        · intro v hv
          exact lookupFirst_mem _ _ _ hv
        · intro v hv
          exact lookupFirst_mem _ _ _ hv
        · intro v hv
          exact lookupFirst_mem _ _ _ hv
        · intro kv hkv
          simp only [setKey, List.mem_append] at hkv
          rcases hkv with h | h
          · exact Or.inr (List.mem_of_mem_filter (List.mem_of_mem_filter h))
          · left
            simpa using h
      · cases hb

/-- Witness for C8: a row with a padded header, a NaN cell and a blank cell
cleans to exactly the one trimmed good entry. -/
theorem clean_drops_blank_before_alias_witness :
    ("First name", "Ada") ∈ cleanRow
      [("  First name ", Cell.str " Ada  "), ("X", Cell.na), ("Y", Cell.str "   ")] ∧
    cleanRow [("  First name ", Cell.str " Ada  "), ("X", Cell.na), ("Y", Cell.str "   ")] =
      [("First name", "Ada")] :=
  ⟨((clean_drops_blank_before_alias
      [("  First name ", Cell.str " Ada  "), ("X", Cell.na), ("Y", Cell.str "   ")]).1
      "First name" "Ada").mpr
      ⟨"  First name ", " Ada  ", by decide, by decide, by decide, by decide⟩,
    by decide⟩

/-- C9: the code violates the claimed invariant — the input key
`organization` resolves to the promoted core attribute `company_name`
(it is in the configured alias table) and does fill that slot, yet it also
remains in the flexible document, because the literal exclusion list
`core_aliases` omits the lower-case/snake-case aliases declared by
`ContactCreate`. -/
theorem custom_data_core_collision_bug :
    companyAliases.contains "organization" = true ∧
    buildContact okAll "Sheet1"
      (cleanRow [("Email", Cell.str "x@y.com"), ("organization", Cell.str "Acme Inc")]) =
      some { email := "x@y.com", company_name := some "Acme Inc",
             custom_data := [("organization", "Acme Inc"), ("original_sheet", "Sheet1")] } := by
  refine ⟨by decide, by decide⟩

/-- C10: a row on which record construction fails leaves the run state
untouched — no record queued, the email not marked seen — so a later row of
the same run with the same email is still accepted when its construction
succeeds. -/
theorem seen_marked_only_on_success
    (ok : List (String × String) → Bool) (sheet : String) (st : RunState)
    (r1 r2 : RawRow) (e : String) (c : ContactCreate)
    (h1 : buildContact ok sheet (cleanRow r1) = none)
    (hE : (cleanRow r2).lookup "Email" = some e)
    (he : e ≠ "") (hat : pyContainsChar e '@' = true)
    (hseen : st.seen.contains (pyLower e) = false)
    (hb : buildContact ok sheet (cleanRow r2) = some c) :
    processRow ok sheet st r1 = st ∧
    [r1, r2].foldl (processRow ok sheet) st =
      { seen := st.seen ++ [pyLower e], records := st.records ++ [c] } := by
  have hstep := processRow_build_none ok sheet st r1 h1
  refine ⟨hstep, ?_⟩
  simp only [List.foldl_cons, List.foldl_nil, hstep]
  rw [processRow_eq ok sheet st r2 e hE he hat, hb, hseen]
  simp

/-- Witness for C10: a failing row followed by a succeeding row with the
same email `dup@x.com`. -/
theorem seen_marked_only_on_success_witness :
    buildContact okNoBad "S"
      (cleanRow [("Email", Cell.str "dup@x.com"), ("bad", Cell.str "1")]) = none ∧
    (cleanRow [("Email", Cell.str "dup@x.com")]).lookup "Email" = some "dup@x.com" ∧
    "dup@x.com" ≠ "" ∧ pyContainsChar "dup@x.com" '@' = true ∧
    (RunState.mk [] []).seen.contains (pyLower "dup@x.com") = false ∧
    buildContact okNoBad "S" (cleanRow [("Email", Cell.str "dup@x.com")]) =
      some { email := "dup@x.com", custom_data := [("original_sheet", "S")] } ∧
    ([[("Email", Cell.str "dup@x.com"), ("bad", Cell.str "1")],
      [("Email", Cell.str "dup@x.com")]].foldl (processRow okNoBad "S") ⟨[], []⟩ =
      { seen := [] ++ [pyLower "dup@x.com"],
        records := [] ++ [{ email := "dup@x.com", custom_data := [("original_sheet", "S")] }] }) :=
  ⟨by decide, by decide, by decide, by decide, by decide, by decide,
    (seen_marked_only_on_success okNoBad "S" ⟨[], []⟩
      [("Email", Cell.str "dup@x.com"), ("bad", Cell.str "1")]
      [("Email", Cell.str "dup@x.com")] "dup@x.com"
      { email := "dup@x.com", custom_data := [("original_sheet", "S")] }
      (by decide) (by decide) (by decide) (by decide) (by decide) (by decide)).2⟩

end FeedbackOS
